import Mathlib

/-!
Shallow embedding of scripts/update-tpip.ts, the third-party license
manifest updater: the data model, the lock-graph dependency resolver and
the main reconciliation pass, together with theorems settling the
specification claims about them.

The script is synchronous and effect-light: its two file reads become
explicit arguments, the node_modules tree consulted by getLicense
becomes a lookup environment, and the single unconditional file write at
the end of main becomes a field of the run outcome.  The unbounded
recursion of resolveInternal is indexed by fuel; exhausting the fuel
models the non-termination a cyclic internal namespace could produce and
is kept distinct from the thrown resolution error.
-/

namespace UpdateTpip

/-- One entry of the package lock file: a resolved package with its
version and its dependency map from name to version range.  A lock entry
whose dependencies object is absent behaves exactly as an empty map in
the script (it coalesces with the nullish operator), so the map is kept
total here. -/
structure Package where
  version : String
  dependencies : List (String × String)
deriving DecidableEq

/-- The package lock file: resolved packages keyed by their path inside
the lock structure (the root under the empty key, every installed
package under its node_modules path). -/
structure PackageLockJson where
  packages : List (String × Package)
deriving DecidableEq

/-- One tracked manifest entry. -/
structure TpipDependency where
  name : String
  version : String
  spdx : String
  url : String
  license : String
deriving DecidableEq

/-- Sentinel marker for manifest fields that require manual completion. -/
def FIXME : String := "<FIXME>"

/-- Property lookup in a string-keyed object, modelling JS property
access and the name-in-object test on objects with unique keys. -/
def objGet {α : Type} : List (String × α) → String → Option α
  | [], _ => none
  | (k, v) :: rest, key => if k = key then some v else objGet rest key

/-- Prefix test on strings, the semantics of JS String.startsWith. -/
def strStarts (s p : String) : Bool :=
  p.data.isPrefixOf s.data

/-- Look a package up in the lock file: the root package is keyed by the
empty string, every other package by its node_modules path.  The script
logs a diagnostic and returns undefined on a miss, modelled by none. -/
def getPackage (name : String) (lockJson : PackageLockJson) : Option Package :=
  let node_module := if name = "" then name else "node_modules/" ++ name
  objGet lockJson.packages node_module

/-- A manifest entry needs completion when its version, license, spdx or
url field holds the sentinel.  The name field is not inspected. -/
def hasFixMe (dependency : TpipDependency) : Bool :=
  (dependency.version == FIXME) || (dependency.license == FIXME) ||
    (dependency.spdx == FIXME) || (dependency.url == FIXME)

/-- Declared license of an installed package.  The environment fs models
the node_modules tree: fs name is the license field of the package.json
of the installed package, or none when that file does not exist, in
which case the script warns and answers the UNKNOWN sentinel. -/
def getLicense (fs : String → Option String) (name : String) : String :=
  match fs name with
  | none => "UNKNOWN"
  | some l => l

/-- Conflict warning emitted by the resolver: the dependency name, the
version requirement already recorded for it, and the locked version of
the package (none when the package is absent from the lock file). -/
structure Conflict where
  name : String
  recorded : String
  locked : Option String
deriving DecidableEq

/-- Resolver state: the accumulator of resolved dependencies in
insertion order and the conflict warnings emitted so far. -/
structure ResolveState where
  results : List (String × String)
  warnings : List Conflict
deriving DecidableEq

/-- Outcome of a resolver run: normal return, the thrown error naming
the package whose lock entry was missing, or exhaustion of the fuel that
stands in for the unbounded recursion of the script. -/
inductive ResolveOutcome where
  | ok (st : ResolveState)
  | err (name : String)
  | outOfFuel
deriving DecidableEq

/-- Loop body of resolveInternal over a dependency list.  A name in the
internal namespace is recursed into (a missing lock entry for it throws,
as entering resolveInternal on it would), a type-only name is skipped,
and any other name is recorded only when absent from the accumulator; a
name already present is never overwritten, and a conflict warning is
emitted exactly when the recorded requirement differs from the locked
version of the package named by it. -/
def resolveList : Nat → PackageLockJson → List (String × String) → ResolveState → ResolveOutcome
  | 0, _, _, _ => .outOfFuel
  | _ + 1, _, [], st => .ok st
  | fuel + 1, lockJson, (dependency, range) :: rest, st =>
    if strStarts dependency "@arm-debug" then
      match getPackage dependency lockJson with
      | none => .err dependency
      | some pkg =>
        match resolveList fuel lockJson pkg.dependencies st with
        | .ok st2 => resolveList fuel lockJson rest st2
        | e => e
    else if strStarts dependency "@types" then
      resolveList fuel lockJson rest st
    else
      match objGet st.results dependency with
      | some recorded =>
        let lockedVersion := (getPackage dependency lockJson).map Package.version
        let st2 :=
          if lockedVersion = some recorded then st
          else { st with warnings := st.warnings ++ [⟨dependency, recorded, lockedVersion⟩] }
        resolveList fuel lockJson rest st2
      | none =>
        resolveList fuel lockJson rest { st with results := st.results ++ [(dependency, range)] }

/-- Entry point of the resolver, starting from the root package keyed by
the empty string; a missing root throws at once. -/
def resolveInternal (fuel : Nat) (lockJson : PackageLockJson) : ResolveOutcome :=
  match getPackage "" lockJson with
  | none => .err ""
  | some pkg => resolveList fuel lockJson pkg.dependencies ⟨[], []⟩

/-- Names of the resolved set that are absent from the tracked manifest,
in resolution order. -/
def missingOf (tpipJson : List TpipDependency) (locked : List (String × String)) : List String :=
  (locked.map Prod.fst).filter (fun d => !(tpipJson.any (fun t => t.name == d)))

/-- Manifest entry synthesized for a missing dependency: version from
the lock file when the package is present there (the sentinel
otherwise), spdx auto-detected from the installed package, url and
license left as the sentinel. -/
def newEntry (lockJson : PackageLockJson) (fs : String → Option String) (dependency : String) :
    TpipDependency :=
  { name := dependency,
    version := ((getPackage dependency lockJson).map Package.version).getD FIXME,
    spdx := getLicense fs dependency,
    url := FIXME,
    license := FIXME }

/-- Update pass of main over one manifest entry: when the entry is in
the lock file and the locked version differs from the tracked one, the
version is updated, and when moreover the freshly detected license
differs from the tracked spdx, the spdx is updated as well; the flag
reports the latter, which the script surfaces as exit code 1. -/
def driftEntry (lockJson : PackageLockJson) (fs : String → Option String)
    (dependency : TpipDependency) : TpipDependency × Bool :=
  match getPackage dependency.name lockJson with
  | none => (dependency, false)
  | some locked =>
    if dependency.version = locked.version then (dependency, false)
    else
      let actLicense := getLicense fs dependency.name
      if dependency.spdx = actLicense then
        ({ dependency with version := locked.version }, false)
      else
        ({ dependency with version := locked.version, spdx := actLicense }, true)

/-- Update pass of main over the whole manifest; the flag reports
whether any entry had a license change. -/
def driftPass (lockJson : PackageLockJson) (fs : String → Option String)
    (tpipJson : List TpipDependency) : List TpipDependency × Bool :=
  let drifted := tpipJson.map (driftEntry lockJson fs)
  (drifted.map Prod.fst, drifted.any Prod.snd)

/-- Hexadecimal digit character. -/
def hexDigit (n : Nat) : Char :=
  if n < 10 then Char.ofNat (48 + n) else Char.ofNat (87 + n)

/-- Four-digit hexadecimal rendering of a code point below 0x10000. -/
def hex4 (n : Nat) : String :=
  String.mk [hexDigit (n / 4096 % 16), hexDigit (n / 256 % 16), hexDigit (n / 16 % 16),
    hexDigit (n % 16)]

/-- JSON escaping of one character, as JSON.stringify performs it. -/
def escapeChar (c : Char) : String :=
  if c = '"' then "\\\""
  else if c = '\\' then "\\\\"
  else if c = '\n' then "\\n"
  else if c = '\r' then "\\r"
  else if c = '\t' then "\\t"
  else if c = Char.ofNat 8 then "\\b"
  else if c = Char.ofNat 12 then "\\f"
  else if c.toNat < 32 then "\\u" ++ hex4 c.toNat
  else String.singleton c

/-- JSON string literal for s. -/
def jsonQuote (s : String) : String :=
  "\"" ++ String.join (s.data.map escapeChar) ++ "\""

/-- Serialization of one manifest entry as JSON.stringify renders it at
depth one under an indent of four spaces. -/
def stringifyEntry (d : TpipDependency) : String :=
  "\x7b\n        \"name\": " ++ jsonQuote d.name ++
    ",\n        \"version\": " ++ jsonQuote d.version ++
    ",\n        \"spdx\": " ++ jsonQuote d.spdx ++
    ",\n        \"url\": " ++ jsonQuote d.url ++
    ",\n        \"license\": " ++ jsonQuote d.license ++
    "\n    \x7d"

/-- Serialization of the manifest exactly as the call
JSON.stringify(tpipJson, undefined, 4) at the end of main renders it. -/
def jsonStringify4 (tpipJson : List TpipDependency) : String :=
  match tpipJson with
  | [] => "[]"
  | _ => "[\n    " ++ String.intercalate ",\n    " (tpipJson.map stringifyEntry) ++ "\n]"

/-- Observable outcome of a completed run of main: the final manifest,
the file write performed at the end (target path and serialized
contents) and the process exit code. -/
structure MainResult where
  manifest : List TpipDependency
  written : String × String
  exitCode : Nat
deriving DecidableEq

/-- Tail of main after the resolver ran: the fixable-entries result so
far and the resolved set come in, missing entries are appended (setting
result 2), the update pass runs (a license change setting result 1 last)
and the manifest is written back unconditionally. -/
def finishMain (jsonFile : String) (tpipJson : List TpipDependency) (lockJson : PackageLockJson)
    (fs : String → Option String) (locked : List (String × String)) (result : Nat) : MainResult :=
  let missing := missingOf tpipJson locked
  let result1 := if missing.isEmpty then result else 2
  let tpip1 := tpipJson ++ missing.map (newEntry lockJson fs)
  let dp := driftPass lockJson fs tpip1
  let result2 := if dp.2 then 1 else result1
  { manifest := dp.1,
    written := (jsonFile, jsonStringify4 dp.1),
    exitCode := result2 }

/-- The whole run of main on the parsed manifest and lock file.  The
sentinel scan sets result 1, a thrown resolution error is caught and
sets result 2 with an empty resolved set, and the rest is finishMain;
none models the non-termination that unbounded internal recursion could
produce, in which case the script never completes. -/
def main (fuel : Nat) (jsonFile : String) (tpipJson : List TpipDependency)
    (lockJson : PackageLockJson) (fs : String → Option String) : Option MainResult :=
  let result0 : Nat := if tpipJson.any hasFixMe then 1 else 0
  match resolveInternal fuel lockJson with
  | .outOfFuel => none
  | .err _ => some (finishMain jsonFile tpipJson lockJson fs [] 2)
  | .ok st => some (finishMain jsonFile tpipJson lockJson fs st.results result0)

/-- Fixture: a tracked entry whose version matches the lock but whose
detected license differs from the tracked spdx. -/
def entryC1 : TpipDependency := ⟨"foo", "1.2.3", "MIT", "https://example.com/foo", "MIT text"⟩

/-- Fixture: lock file resolving foo at the already tracked version. -/
def lockC1 : PackageLockJson :=
  ⟨[("", ⟨"1.0.0", [("foo", "^1.0.0")]⟩), ("node_modules/foo", ⟨"1.2.3", []⟩)]⟩

/-- Fixture: installed tree declaring a license different from the
tracked spdx of foo. -/
def fsC1 : String → Option String := fun n => if n = "foo" then some "Apache-2.0" else none

/-- Fixture: a tracked entry whose version lags behind the lock and
whose detected license differs from its tracked spdx. -/
def entryW1 : TpipDependency := ⟨"foo", "1.0.0", "MIT", "https://example.com/foo", "MIT text"⟩

/-- Fixture: lock file resolving foo at a newer version. -/
def lockW1 : PackageLockJson :=
  ⟨[("", ⟨"1.0.0", [("foo", "^2.0.0")]⟩), ("node_modules/foo", ⟨"2.0.0", []⟩)]⟩

/-- Fixture: installed tree for the version-and-license drift run. -/
def fsW1 : String → Option String := fun n => if n = "foo" then some "Apache-2.0" else none

/-- Fixture: outcome of the version-and-license drift run. -/
def outW1 : MainResult :=
  ⟨[⟨"foo", "2.0.0", "Apache-2.0", "https://example.com/foo", "MIT text"⟩],
    ("tpip.json", jsonStringify4 [⟨"foo", "2.0.0", "Apache-2.0", "https://example.com/foo", "MIT text"⟩]),
    1⟩

/-- Fixture: lock file with one dependency absent from the manifest. -/
def lockC2 : PackageLockJson :=
  ⟨[("", ⟨"1.0.0", [("foo", "^1.0.0")]⟩), ("node_modules/foo", ⟨"1.2.3", []⟩)]⟩

/-- Fixture: installed tree declaring MIT for foo. -/
def fsC2 : String → Option String := fun n => if n = "foo" then some "MIT" else none

/-- Fixture: lock file for the appended-entry witness run. -/
def lockW2 : PackageLockJson :=
  ⟨[("", ⟨"1.0.0", [("foo", "^1.0.0")]⟩), ("node_modules/foo", ⟨"1.2.3", []⟩)]⟩

/-- Fixture: installed tree for the appended-entry witness run. -/
def fsW2 : String → Option String := fun n => if n = "foo" then some "MIT" else none

/-- Fixture: outcome of the appended-entry witness run. -/
def outW2 : MainResult :=
  ⟨[newEntry lockW2 fsW2 "foo"],
    ("tpip.json", jsonStringify4 [newEntry lockW2 fsW2 "foo"]), 2⟩

/-- Fixture: lock file in which foo is required both directly by the
root (first) and by an internal-namespace package (later). -/
def lockC3 : PackageLockJson :=
  ⟨[("", ⟨"1.0.0", [("foo", "^2.0.0"), ("@arm-debug/x", "1.0.0")]⟩),
    ("node_modules/foo", ⟨"1.5.0", []⟩),
    ("node_modules/@arm-debug/x", ⟨"1.0.0", [("foo", "^1.0.0")]⟩)]⟩

/-- Fixture: lock file for the conflict-step witness. -/
def lockW3 : PackageLockJson := ⟨[("node_modules/foo", ⟨"1.5.0", []⟩)]⟩

/-- Fixture: a manifest entry whose name field holds the sentinel while
the four scanned fields are clean. -/
def entryC4 : TpipDependency := ⟨"<FIXME>", "1.0.0", "MIT", "https://example.com/a", "MIT"⟩

/-- Fixture: lock file with a dependency-free root. -/
def lockC4 : PackageLockJson := ⟨[("", ⟨"1.0.0", []⟩)]⟩

/-- Fixture: a manifest entry whose version field holds the sentinel. -/
def entryW4 : TpipDependency := ⟨"bar", "<FIXME>", "MIT", "https://example.com/bar", "MIT"⟩

/-- Fixture: lock file for the sentinel witness run. -/
def lockW4 : PackageLockJson := ⟨[("", ⟨"1.0.0", []⟩)]⟩

/-- Fixture: outcome of the sentinel witness run. -/
def outW4 : MainResult :=
  ⟨[entryW4], ("tpip.json", jsonStringify4 [entryW4]), 1⟩

/-- Fixture: lock file whose root references foo although foo has no
lock entry of its own. -/
def lockC5 : PackageLockJson := ⟨[("", ⟨"1.0.0", [("foo", "^1.0.0")]⟩)]⟩

/-- Fixture: a manifest already tracking the unresolvable foo. -/
def entryC5 : TpipDependency := ⟨"foo", "0.9.0", "MIT", "https://example.com/foo", "MIT"⟩

/-- Fixture: lock file for the idempotence witness run. -/
def lockW6 : PackageLockJson :=
  ⟨[("", ⟨"1.0.0", [("foo", "^1.0.0")]⟩), ("node_modules/foo", ⟨"1.2.3", []⟩)]⟩

/-- Fixture: installed tree for the idempotence witness run. -/
def fsW6 : String → Option String := fun n => if n = "foo" then some "MIT" else none

/-- Fixture: outcome of the first idempotence witness run. -/
def outW6 : MainResult :=
  ⟨[⟨"foo", "1.2.3", "MIT", "<FIXME>", "<FIXME>"⟩],
    ("tpip.json", jsonStringify4 [⟨"foo", "1.2.3", "MIT", "<FIXME>", "<FIXME>"⟩]), 2⟩

/-- Fixture: lock file with a dependency-free root and a type-only and a
regular dependency. -/
def lockW7 : PackageLockJson :=
  ⟨[("", ⟨"1.0.0", [("foo", "^1.0.0"), ("@types/node", "^20.11.30")]⟩),
    ("node_modules/foo", ⟨"1.2.3", []⟩),
    ("node_modules/@types/node", ⟨"20.12.0", []⟩)]⟩

/-- Fixture: outcome of the unconditional-write witness run. -/
def outW8 : MainResult := ⟨[], ("third-party-licenses.json", "[]"), 2⟩

/-- Fixture: lock file for the namespace-invariant witness run. -/
def lockW9 : PackageLockJson :=
  ⟨[("", ⟨"1.0.0", [("@types/jest", "^29.5.0"), ("bar", "^1.0.0")]⟩),
    ("node_modules/bar", ⟨"1.0.0", []⟩)]⟩

/-- Fixture: lock file for the synthesized-entry persistence run. -/
def lockW10 : PackageLockJson :=
  ⟨[("", ⟨"1.0.0", [("foo", "^1.0.0")]⟩), ("node_modules/foo", ⟨"1.2.3", []⟩)]⟩

/-- Fixture: outcome of the first synthesized-entry persistence run. -/
def outW10 : MainResult :=
  ⟨[newEntry lockW10 (fun _ => none) "foo"],
    ("tpip.json", jsonStringify4 [newEntry lockW10 (fun _ => none) "foo"]), 2⟩

/-- Fixture: outcome of the second synthesized-entry persistence run. -/
def outW10b : MainResult :=
  ⟨[newEntry lockW10 (fun _ => none) "foo"],
    ("tpip.json", jsonStringify4 [newEntry lockW10 (fun _ => none) "foo"]), 1⟩

/-- Characterization of a failed object lookup: no key of the list is
the requested one. -/
theorem objGet_eq_none {α : Type} (l : List (String × α)) (key : String) :
    objGet l key = none ↔ ∀ p ∈ l, p.1 ≠ key := by
  induction l with
  | nil => simp [objGet]
  | cons p rest ih =>
    obtain ⟨k, v⟩ := p
    by_cases h : k = key <;> simp [objGet, h, ih]

/-- The update pass never changes the name of an entry. -/
theorem driftEntry_name (lockJson : PackageLockJson) (fs : String → Option String)
    (d : TpipDependency) : (driftEntry lockJson fs d).1.name = d.name := by
  unfold driftEntry
  cases h : getPackage d.name lockJson with
  | none => rfl
  | some locked =>
    by_cases h1 : d.version = locked.version
    · simp [h1]
    · by_cases h2 : d.spdx = getLicense fs d.name <;> simp [h1, h2]

/-- An entry that already went through the update pass is a fixed point
of it and reports no further license change. -/
theorem driftEntry_fix (lockJson : PackageLockJson) (fs : String → Option String)
    (d : TpipDependency) :
    driftEntry lockJson fs (driftEntry lockJson fs d).1 = ((driftEntry lockJson fs d).1, false) := by
  cases h : getPackage d.name lockJson with
  | none =>
    have hx : driftEntry lockJson fs d = (d, false) := by simp [driftEntry, h]
    rw [hx]
    exact hx
  | some locked =>
    by_cases h1 : d.version = locked.version
    · have hx : driftEntry lockJson fs d = (d, false) := by simp [driftEntry, h, h1]
      rw [hx]
      exact hx
    · by_cases h2 : d.spdx = getLicense fs d.name
      · have hx : driftEntry lockJson fs d = ({ d with version := locked.version }, false) := by
          simp [driftEntry, h, h1, h2]
        rw [hx]
        simp [driftEntry, h]
      · have hx : driftEntry lockJson fs d =
            ({ d with version := locked.version, spdx := getLicense fs d.name }, true) := by
          simp [driftEntry, h, h1, h2]
        rw [hx]
        simp [driftEntry, h]

/-- A synthesized entry carries the locked version and is therefore left
untouched by the update pass of the very run that created it. -/
theorem driftEntry_newEntry (lockJson : PackageLockJson) (fs : String → Option String)
    (dependency : String) :
    driftEntry lockJson fs (newEntry lockJson fs dependency) =
      (newEntry lockJson fs dependency, false) := by
  cases h : getPackage dependency lockJson with
  | none => simp [driftEntry, newEntry, h]
  | some locked => simp [driftEntry, newEntry, h]

/-- Unfolding of the update pass over a cons cell. -/
theorem driftPass_cons (lockJson : PackageLockJson) (fs : String → Option String)
    (d : TpipDependency) (l : List TpipDependency) :
    driftPass lockJson fs (d :: l) =
      ((driftEntry lockJson fs d).1 :: (driftPass lockJson fs l).1,
        (driftEntry lockJson fs d).2 || (driftPass lockJson fs l).2) := by
  simp [driftPass]

/-- The license-change flag of the update pass holds exactly when some
entry of the manifest reports a change. -/
theorem driftPass_snd (lockJson : PackageLockJson) (fs : String → Option String)
    (l : List TpipDependency) :
    (driftPass lockJson fs l).2 = true ↔ ∃ t ∈ l, (driftEntry lockJson fs t).2 = true := by
  simp [driftPass, List.any_eq_true]

/-- Membership in the manifest produced by the update pass. -/
theorem driftPass_mem (lockJson : PackageLockJson) (fs : String → Option String)
    (l : List TpipDependency) (d : TpipDependency) (h : d ∈ l) :
    (driftEntry lockJson fs d).1 ∈ (driftPass lockJson fs l).1 := by
  simp only [driftPass]
  exact List.mem_map_of_mem Prod.fst (List.mem_map_of_mem (driftEntry lockJson fs) h)

/-- A manifest that already went through the update pass is a fixed
point of it and reports no license change at all. -/
theorem driftPass_fix (lockJson : PackageLockJson) (fs : String → Option String)
    (l : List TpipDependency) :
    driftPass lockJson fs (driftPass lockJson fs l).1 = ((driftPass lockJson fs l).1, false) := by
  induction l with
  | nil => rfl
  | cons d rest ih =>
    have hc := driftPass_cons lockJson fs d rest
    rw [hc]
    rw [driftPass_cons lockJson fs (driftEntry lockJson fs d).1 (driftPass lockJson fs rest).1]
    rw [driftEntry_fix, ih]
    simp

/-- Exit code of the reconciliation tail: a license change in the
update pass wins with 1 (it is assigned last), otherwise missing
dependencies give 2, otherwise the incoming result stands. -/
theorem finishMain_exitCode (jsonFile : String) (tpipJson : List TpipDependency)
    (lockJson : PackageLockJson) (fs : String → Option String)
    (locked : List (String × String)) (result : Nat) :
    (finishMain jsonFile tpipJson lockJson fs locked result).exitCode =
      if (driftPass lockJson fs
            (tpipJson ++ (missingOf tpipJson locked).map (newEntry lockJson fs))).2 then 1
      else if (missingOf tpipJson locked).isEmpty then result else 2 := by
  rfl

/-- Manifest of the reconciliation tail: the update pass applied to the
incoming manifest extended with the synthesized missing entries. -/
theorem finishMain_manifest (jsonFile : String) (tpipJson : List TpipDependency)
    (lockJson : PackageLockJson) (fs : String → Option String)
    (locked : List (String × String)) (result : Nat) :
    (finishMain jsonFile tpipJson lockJson fs locked result).manifest =
      (driftPass lockJson fs
        (tpipJson ++ (missingOf tpipJson locked).map (newEntry lockJson fs))).1 := by
  rfl

/-- The reconciliation tail writes the serialized final manifest to the
input path, unconditionally. -/
theorem finishMain_written (jsonFile : String) (tpipJson : List TpipDependency)
    (lockJson : PackageLockJson) (fs : String → Option String)
    (locked : List (String × String)) (result : Nat) :
    (finishMain jsonFile tpipJson lockJson fs locked result).written =
      (jsonFile, jsonStringify4 (finishMain jsonFile tpipJson lockJson fs locked result).manifest) := by
  rfl

/-- When the incoming result is already nonzero (1 or 2), the exit code
of the reconciliation tail stays 1 or 2. -/
theorem finishMain_exit_one_or_two (jsonFile : String) (tpipJson : List TpipDependency)
    (lockJson : PackageLockJson) (fs : String → Option String)
    (locked : List (String × String)) (result : Nat) (h : result = 1 ∨ result = 2) :
    (finishMain jsonFile tpipJson lockJson fs locked result).exitCode = 1 ∨
      (finishMain jsonFile tpipJson lockJson fs locked result).exitCode = 2 := by
  rw [finishMain_exitCode]
  rcases h with h | h <;> subst h <;> split <;> (try split) <;> simp

/-- An entry of the incoming manifest reaches the final manifest through
the update pass. -/
theorem finishMain_mem_drift (jsonFile : String) (tpipJson : List TpipDependency)
    (lockJson : PackageLockJson) (fs : String → Option String)
    (locked : List (String × String)) (result : Nat) (d : TpipDependency) (h : d ∈ tpipJson) :
    (driftEntry lockJson fs d).1 ∈ (finishMain jsonFile tpipJson lockJson fs locked result).manifest := by
  rw [finishMain_manifest]
  exact driftPass_mem lockJson fs _ d (List.mem_append_left _ h)

/-- The entry synthesized for a missing dependency appears as such in
the final manifest: the update pass leaves it untouched. -/
theorem finishMain_mem_new (jsonFile : String) (tpipJson : List TpipDependency)
    (lockJson : PackageLockJson) (fs : String → Option String)
    (locked : List (String × String)) (result : Nat) (d : String)
    (h : d ∈ missingOf tpipJson locked) :
    newEntry lockJson fs d ∈ (finishMain jsonFile tpipJson lockJson fs locked result).manifest := by
  rw [finishMain_manifest]
  have hmem : newEntry lockJson fs d ∈
      tpipJson ++ (missingOf tpipJson locked).map (newEntry lockJson fs) :=
    List.mem_append_right _ (List.mem_map_of_mem (newEntry lockJson fs) h)
  have := driftPass_mem lockJson fs _ _ hmem
  rwa [congrArg Prod.fst (driftEntry_newEntry lockJson fs d)] at this

/-- A license change on an entry of the incoming manifest forces exit
code 1 and places the updated entry in the final manifest. -/
theorem finishMain_drift_one (jsonFile : String) (tpipJson : List TpipDependency)
    (lockJson : PackageLockJson) (fs : String → Option String)
    (locked : List (String × String)) (result : Nat) (d : TpipDependency)
    (hd : d ∈ tpipJson) (hflag : (driftEntry lockJson fs d).2 = true) :
    (finishMain jsonFile tpipJson lockJson fs locked result).exitCode = 1 ∧
      (driftEntry lockJson fs d).1 ∈
        (finishMain jsonFile tpipJson lockJson fs locked result).manifest := by
  refine ⟨?_, finishMain_mem_drift jsonFile tpipJson lockJson fs locked result d hd⟩
  rw [finishMain_exitCode]
  have : (driftPass lockJson fs
      (tpipJson ++ (missingOf tpipJson locked).map (newEntry lockJson fs))).2 = true :=
    (driftPass_snd lockJson fs _).mpr ⟨d, List.mem_append_left _ hd, hflag⟩
  simp [this]

/-- Every name of the resolved set occurs as an entry name of the final
manifest, so the manifest written by a run is never missing a resolved
dependency on the next run. -/
theorem missingOf_finishMain (jsonFile : String) (tpipJson : List TpipDependency)
    (lockJson : PackageLockJson) (fs : String → Option String)
    (locked : List (String × String)) (result : Nat) :
    missingOf (finishMain jsonFile tpipJson lockJson fs locked result).manifest locked = [] := by
  rw [missingOf, List.filter_eq_nil_iff]
  intro d hd
  simp only [Bool.not_eq_true', Bool.not_eq_false]
  rw [List.any_eq_true]
  by_cases htp : tpipJson.any (fun t => t.name == d) = true
  · obtain ⟨t, ht, hbeq⟩ := List.any_eq_true.mp htp
    refine ⟨(driftEntry lockJson fs t).1,
      finishMain_mem_drift jsonFile tpipJson lockJson fs locked result t ht, ?_⟩
    rw [driftEntry_name]
    exact hbeq
  · have hdm : d ∈ missingOf tpipJson locked := by
      rw [missingOf, List.mem_filter]
      exact ⟨hd, by simp [htp]⟩
    refine ⟨newEntry lockJson fs d,
      finishMain_mem_new jsonFile tpipJson lockJson fs locked result d hdm, ?_⟩
    simp [newEntry]

/-- Resolver loop invariant: a successful run only ever adds keys that
passed both namespace tests, so if no accumulator key lies in the
type-only or internal namespace on entry, none does on exit. -/
theorem resolveList_keys (lockJson : PackageLockJson) :
    ∀ (fuel : Nat) (deps : List (String × String)) (st st2 : ResolveState),
    resolveList fuel lockJson deps st = .ok st2 →
    (∀ k ∈ st.results.map Prod.fst,
      strStarts k "@types" = false ∧ strStarts k "@arm-debug" = false) →
    ∀ k ∈ st2.results.map Prod.fst,
      strStarts k "@types" = false ∧ strStarts k "@arm-debug" = false := by
  intro fuel
  induction fuel with
  | zero =>
    intro deps st st2 h
    simp [resolveList] at h
  | succ f ih =>
    intro deps st st2 h hpre
    match deps with
    | [] =>
      simp only [resolveList] at h
      cases h
      exact hpre
    | (dep, range) :: rest =>
      simp only [resolveList] at h
      by_cases h1 : strStarts dep "@arm-debug" = true
      · rw [if_pos h1] at h
        split at h
        · simp at h
        · split at h
          · rename_i stm hrec
            exact ih rest stm st2 h (ih _ st stm hrec hpre)
          · rename_i hne
            exact absurd h (hne st2)
      · rw [if_neg h1] at h
        by_cases h2 : strStarts dep "@types" = true
        · rw [if_pos h2] at h
          exact ih rest st st2 h hpre
        · rw [if_neg h2] at h
          split at h
          · split at h
            · exact ih rest st st2 h hpre
            · exact ih rest _ st2 h hpre
          · refine ih rest _ st2 h ?_
            intro k hk
            simp only [List.map_append, List.mem_append] at hk
            rcases hk with hk | hk
            · exact hpre k hk
            · simp only [List.map_cons, List.map_nil, List.mem_singleton] at hk
              subst hk
              exact ⟨by simpa using h2, by simpa using h1⟩

/-- Flat run of the resolver loop: over a dependency list free of
internal-namespace names with pairwise distinct keys none of which is
already recorded, the loop simply appends the non-type-only pairs to the
accumulator, warns about nothing, and cannot fail. -/
theorem resolveList_flat (lockJson : PackageLockJson) :
    ∀ (deps : List (String × String)) (fuel : Nat) (st : ResolveState),
    (∀ p ∈ deps, strStarts p.1 "@arm-debug" = false) →
    (deps.map Prod.fst).Nodup →
    (∀ p ∈ deps, objGet st.results p.1 = none) →
    deps.length < fuel →
    resolveList fuel lockJson deps st =
      .ok ⟨st.results ++ deps.filter (fun p => !(strStarts p.1 "@types")), st.warnings⟩ := by
  intro deps
  induction deps with
  | nil =>
    intro fuel st _ _ _ hf
    match fuel, hf with
    | f + 1, _ => simp [resolveList]
  | cons p rest ih =>
    obtain ⟨dep, range⟩ := p
    intro fuel st hni hnd hnone hf
    match fuel, hf with
    | f + 1, hf =>
      have h1 : strStarts dep "@arm-debug" = false := hni (dep, range) (List.mem_cons_self _ _)
      have hlt : rest.length < f := by
        simpa using Nat.lt_of_succ_lt_succ hf
      have hni' : ∀ p ∈ rest, strStarts p.1 "@arm-debug" = false :=
        fun p hp => hni p (List.mem_cons_of_mem _ hp)
      have hnd' : (rest.map Prod.fst).Nodup := (List.nodup_cons.mp (by simpa using hnd)).2
      have hdep_not : dep ∉ rest.map Prod.fst := (List.nodup_cons.mp (by simpa using hnd)).1
      simp only [resolveList]
      rw [if_neg (by simp [h1])]
      by_cases h2 : strStarts dep "@types" = true
      · rw [if_pos h2]
        rw [ih f st hni' hnd' (fun p hp => hnone p (List.mem_cons_of_mem _ hp)) hlt]
        simp [List.filter_cons, h2]
      · rw [if_neg h2]
        have hno : objGet st.results dep = none := hnone (dep, range) (List.mem_cons_self _ _)
        simp only [hno]
        have hnone' : ∀ p ∈ rest,
            objGet (st.results ++ [(dep, range)]) p.1 = none := by
          intro p hp
          rw [objGet_eq_none]
          intro q hq
          rcases List.mem_append.mp hq with hq | hq
          · exact (objGet_eq_none _ _).mp (hnone p (List.mem_cons_of_mem _ hp)) q hq
          · simp only [List.mem_singleton] at hq
            subst hq
            intro hqe
            have hqe' : dep = p.1 := hqe
            exact hdep_not (hqe' ▸ List.mem_map_of_mem Prod.fst hp)
        rw [ih f ⟨st.results ++ [(dep, range)], st.warnings⟩ hni' hnd' hnone' hlt]
        simp [List.filter_cons, h2, List.append_assoc]

/-- The result value is assigned only 1 or 2 after the sentinel scan
found something, and is never reset to 0: a completing run whose input
manifest holds a sentinel entry exits 1 or 2. -/
theorem main_exit_of_fixme (fuel : Nat) (jsonFile : String) (tpipJson : List TpipDependency)
    (lockJson : PackageLockJson) (fs : String → Option String) (o : MainResult)
    (d : TpipDependency) (hd : d ∈ tpipJson) (hfix : hasFixMe d = true)
    (h : main fuel jsonFile tpipJson lockJson fs = some o) :
    o.exitCode = 1 ∨ o.exitCode = 2 := by
  have h0 : tpipJson.any hasFixMe = true := List.any_eq_true.mpr ⟨d, hd, hfix⟩
  simp only [main] at h
  rw [if_pos h0] at h
  split at h
  · simp at h
  · cases h
    exact finishMain_exit_one_or_two _ _ _ _ _ _ (Or.inr rfl)
  · cases h
    exact finishMain_exit_one_or_two _ _ _ _ _ _ (Or.inl rfl)

/-- A completing run went through finishMain, either with the caught
resolution error (empty resolved set, result 2) or with the resolved
set and the result of the sentinel scan. -/
theorem main_eq_some (fuel : Nat) (jsonFile : String) (tpipJson : List TpipDependency)
    (lockJson : PackageLockJson) (fs : String → Option String) (o : MainResult)
    (h : main fuel jsonFile tpipJson lockJson fs = some o) :
    (∃ n, resolveInternal fuel lockJson = .err n ∧
      o = finishMain jsonFile tpipJson lockJson fs [] 2) ∨
    (∃ st, resolveInternal fuel lockJson = .ok st ∧
      o = finishMain jsonFile tpipJson lockJson fs st.results
        (if tpipJson.any hasFixMe then 1 else 0)) := by
  simp only [main] at h
  split at h
  · simp at h
  · exact Or.inl ⟨_, by assumption, (Option.some.inj h).symm⟩
  · exact Or.inr ⟨_, by assumption, (Option.some.inj h).symm⟩

/-- Running the reconciliation tail again on its own output changes
neither the manifest nor the written file, whatever result value the
second run starts from. -/
theorem finishMain_idem (jsonFile : String) (tpipJson : List TpipDependency)
    (lockJson : PackageLockJson) (fs : String → Option String)
    (locked : List (String × String)) (r r2 : Nat) :
    (finishMain jsonFile (finishMain jsonFile tpipJson lockJson fs locked r).manifest
        lockJson fs locked r2).manifest =
      (finishMain jsonFile tpipJson lockJson fs locked r).manifest ∧
    (finishMain jsonFile (finishMain jsonFile tpipJson lockJson fs locked r).manifest
        lockJson fs locked r2).written =
      (finishMain jsonFile tpipJson lockJson fs locked r).written := by
  have hm := missingOf_finishMain jsonFile tpipJson lockJson fs locked r
  have hmanifest :
      (finishMain jsonFile (finishMain jsonFile tpipJson lockJson fs locked r).manifest
          lockJson fs locked r2).manifest =
        (finishMain jsonFile tpipJson lockJson fs locked r).manifest := by
    rw [finishMain_manifest jsonFile ((finishMain jsonFile tpipJson lockJson fs locked r).manifest),
      hm]
    simp only [List.map_nil, List.append_nil]
    rw [finishMain_manifest jsonFile tpipJson, driftPass_fix]
  refine ⟨hmanifest, ?_⟩
  rw [finishMain_written, finishMain_written, hmanifest]

/-- Claim C1, counterexample: an existing manifest entry whose freshly
detected package license (Apache-2.0) differs from its tracked SPDX
identifier (MIT) is neither updated nor reflected in the exit code when
its tracked version already matches the locked version: the run
completes with the entry unchanged and exit code 0, because the license
comparison only happens inside the version-drift branch. -/
theorem c1_counterexample :
    getLicense fsC1 entryC1.name = "Apache-2.0" ∧
    entryC1.spdx = "MIT" ∧
    ("Apache-2.0" : String) ≠ "MIT" ∧
    main 5 "tpip.json" [entryC1] lockC1 fsC1 =
      some ⟨[entryC1], ("tpip.json", jsonStringify4 [entryC1]), 0⟩ := by
  exact ⟨rfl, rfl, by decide, rfl⟩

/-- Claim C1, amended: when an existing manifest entry's tracked version
differs from the locked version and the freshly detected package license
differs from its tracked SPDX identifier, the entry's version and spdx
are both updated and the final exit code is 1; this assignment happens
after the missing-dependency check, so code 1 overrides a code 2 rather
than the other way around. -/
theorem c1_license_drift_updates (fuel : Nat) (jsonFile : String)
    (tpipJson : List TpipDependency) (lockJson : PackageLockJson) (fs : String → Option String)
    (o : MainResult) (d : TpipDependency) (locked : Package)
    (h : main fuel jsonFile tpipJson lockJson fs = some o)
    (hd : d ∈ tpipJson)
    (hl : getPackage d.name lockJson = some locked)
    (hv : d.version ≠ locked.version)
    (hs : d.spdx ≠ getLicense fs d.name) :
    o.exitCode = 1 ∧
      { d with version := locked.version, spdx := getLicense fs d.name } ∈ o.manifest := by
  have hde : driftEntry lockJson fs d =
      ({ d with version := locked.version, spdx := getLicense fs d.name }, true) := by
    simp [driftEntry, hl, hv, hs]
  rcases main_eq_some fuel jsonFile tpipJson lockJson fs o h with ⟨n, heq, rfl⟩ | ⟨st, heq, rfl⟩ <;>
  · obtain ⟨he, hm⟩ :=
      finishMain_drift_one jsonFile tpipJson lockJson fs _ _ d hd (by rw [hde])
    rw [hde] at hm
    exact ⟨he, hm⟩

/-- Claim C1, witness: on the drift fixture the amended claim applies
and produces the updated entry with exit code 1. -/
theorem c1_license_drift_updates_witness :
    outW1.exitCode = 1 ∧
      (⟨"foo", "2.0.0", "Apache-2.0", "https://example.com/foo", "MIT text"⟩ : TpipDependency) ∈
        outW1.manifest := by
  exact c1_license_drift_updates 5 "tpip.json" [entryW1] lockW1 fsW1 outW1 entryW1
    ⟨"2.0.0", []⟩ rfl (List.mem_singleton.mpr rfl) rfl (by decide) (by decide)

/-- Claim C2, counterexample: the entry appended for the dependency foo,
present in the lock graph but absent from the manifest, carries the
auto-detected license MIT in its spdx field and the sentinel in its url
and license fields, contradicting the claim that the SPDX field is left
as a placeholder sentinel while the license field is auto-detected. -/
theorem c2_counterexample :
    main 3 "tpip.json" [] lockC2 fsC2 =
      some ⟨[⟨"foo", "1.2.3", "MIT", "<FIXME>", "<FIXME>"⟩],
        ("tpip.json", jsonStringify4 [⟨"foo", "1.2.3", "MIT", "<FIXME>", "<FIXME>"⟩]), 2⟩ ∧
    ("MIT" : String) ≠ FIXME ∧ FIXME ≠ "MIT" := by
  exact ⟨rfl, by decide, by decide⟩

/-- Claim C2, amended: every dependency name present in the resolved set
but absent from the manifest is appended as a new entry whose version
comes from the lock graph (sentinel if the package is missing there),
whose spdx field carries the license auto-detected from the installed
package, and whose url and license fields hold the sentinel; the run's
result is set to 2, which is the final exit code unless a license drift
in the later update pass overwrites it with 1, so the exit code is
always 1 or 2. -/
theorem c2_missing_appended (fuel : Nat) (jsonFile : String) (tpipJson : List TpipDependency)
    (lockJson : PackageLockJson) (fs : String → Option String) (st : ResolveState)
    (o : MainResult) (d : String)
    (hres : resolveInternal fuel lockJson = .ok st)
    (h : main fuel jsonFile tpipJson lockJson fs = some o)
    (hd : d ∈ missingOf tpipJson st.results) :
    newEntry lockJson fs d ∈ o.manifest ∧
    (newEntry lockJson fs d).version =
      ((getPackage d lockJson).map Package.version).getD FIXME ∧
    (newEntry lockJson fs d).spdx = getLicense fs d ∧
    (newEntry lockJson fs d).url = FIXME ∧
    (newEntry lockJson fs d).license = FIXME ∧
    (o.exitCode = 1 ∨ o.exitCode = 2) ∧
    ((driftPass lockJson fs
        (tpipJson ++ (missingOf tpipJson st.results).map (newEntry lockJson fs))).2 = false →
      o.exitCode = 2) := by
  rcases main_eq_some fuel jsonFile tpipJson lockJson fs o h with ⟨n, heq, rfl⟩ | ⟨st', heq, rfl⟩
  · rw [hres] at heq
    simp at heq
  · rw [hres] at heq
    injection heq with heq
    subst heq
    have hne : (missingOf tpipJson st.results).isEmpty = false := by
      cases hmo : missingOf tpipJson st.results with
      | nil => rw [hmo] at hd; simp at hd
      | cons a l => simp [List.isEmpty]
    refine ⟨finishMain_mem_new jsonFile tpipJson lockJson fs st.results _ d hd,
      rfl, rfl, rfl, rfl, ?_, ?_⟩
    · rw [finishMain_exitCode]
      split
      · exact Or.inl rfl
      · simp [hne]
    · intro hdp
      rw [finishMain_exitCode]
      simp [hdp, hne]

/-- Claim C2, witness: on the appended-entry fixture the amended claim
applies, placing the synthesized entry in the output with exit code 2. -/
theorem c2_missing_appended_witness :
    newEntry lockW2 fsW2 "foo" ∈ outW2.manifest ∧ outW2.exitCode = 2 := by
  have h := c2_missing_appended 3 "tpip.json" [] lockW2 fsW2 ⟨[("foo", "^1.0.0")], []⟩
    outW2 "foo" rfl rfl (by decide)
  exact ⟨h.1, h.2.2.2.2.2.2 rfl⟩

/-- Claim C3, counterexample: foo is required first by the root with
range caret-2.0.0 and later, through recursion into the internal package
x, with range caret-1.0.0; the resolver keeps the first recorded value,
so last-seen does not win for this non-internal entry, and the warning
it emits compares the recorded range against the locked version 1.5.0
rather than against the new requirement. -/
theorem c3_counterexample :
    resolveInternal 5 lockC3 =
      .ok ⟨[("foo", "^2.0.0")], [⟨"foo", "^2.0.0", some "1.5.0"⟩]⟩ ∧
    ("^2.0.0" : String) ≠ "^1.0.0" := by
  exact ⟨rfl, by decide⟩

/-- Claim C3, amended: when the resolver loop meets a non-internal,
non-type-only dependency name already present in the accumulator, the
recorded value is never overwritten (first-seen wins for every entry,
because the map write happens only when the key is absent), and a
warning is emitted exactly when the recorded requirement differs from
the locked version of that package, not when it differs from the new
requirement. -/
theorem c3_first_seen_wins (fuel : Nat) (lockJson : PackageLockJson) (dep range : String)
    (rest : List (String × String)) (st : ResolveState) (recorded : String)
    (h1 : strStarts dep "@arm-debug" = false)
    (h2 : strStarts dep "@types" = false)
    (h3 : objGet st.results dep = some recorded) :
    resolveList (fuel + 1) lockJson ((dep, range) :: rest) st =
      resolveList fuel lockJson rest
        { results := st.results,
          warnings :=
            if (getPackage dep lockJson).map Package.version = some recorded then st.warnings
            else
              st.warnings ++ [⟨dep, recorded, (getPackage dep lockJson).map Package.version⟩] } := by
  simp only [resolveList]
  rw [if_neg (by simp [h1]), if_neg (by simp [h2])]
  simp only [h3]
  by_cases hc : (getPackage dep lockJson).map Package.version = some recorded
  · rw [if_pos hc, if_pos hc]
  · rw [if_neg hc, if_neg hc]

/-- Claim C3, witness: one concrete conflicting step, keeping the
recorded range and warning against the locked version. -/
theorem c3_first_seen_wins_witness :
    resolveList 2 lockW3 [("foo", "^2.0.0")] ⟨[("foo", "^1.0.0")], []⟩ =
      resolveList 1 lockW3 []
        { results := [("foo", "^1.0.0")],
          warnings :=
            if (getPackage "foo" lockW3).map Package.version = some "^1.0.0" then []
            else [] ++ [⟨"foo", "^1.0.0", (getPackage "foo" lockW3).map Package.version⟩] } := by
  exact c3_first_seen_wins 1 lockW3 "foo" "^2.0.0" [] ⟨[("foo", "^1.0.0")], []⟩ "^1.0.0"
    rfl rfl rfl

/-- Claim C4, counterexample: a manifest entry whose name field equals
the sentinel, with all four scanned fields clean, passes the sentinel
scan unnoticed and the run exits 0. -/
theorem c4_counterexample :
    entryC4.name = FIXME ∧
    hasFixMe entryC4 = false ∧
    main 2 "tpip.json" [entryC4] lockC4 (fun _ => none) =
      some ⟨[entryC4], ("tpip.json", jsonStringify4 [entryC4]), 0⟩ := by
  exact ⟨rfl, rfl, rfl⟩

/-- Claim C4, amended: every manifest entry whose version, spdx, url or
license field equals the sentinel placeholder makes any completing run
exit nonzero (1 or 2): the sentinel scan sets result 1 and the result is
only ever reassigned 1 or 2 afterwards. -/
theorem c4_sentinel_nonzero (fuel : Nat) (jsonFile : String) (tpipJson : List TpipDependency)
    (lockJson : PackageLockJson) (fs : String → Option String) (o : MainResult)
    (d : TpipDependency) (hd : d ∈ tpipJson) (hfix : hasFixMe d = true)
    (h : main fuel jsonFile tpipJson lockJson fs = some o) :
    o.exitCode = 1 ∨ o.exitCode = 2 := by
  exact main_exit_of_fixme fuel jsonFile tpipJson lockJson fs o d hd hfix h

/-- Claim C4, witness: a manifest entry with a sentinel version makes
the run exit 1. -/
theorem c4_sentinel_nonzero_witness :
    outW4.exitCode = 1 ∨ outW4.exitCode = 2 := by
  exact c4_sentinel_nonzero 2 "tpip.json" [entryW4] lockW4 (fun _ => none) outW4 entryW4
    (List.mem_singleton.mpr rfl) rfl rfl

/-- Claim C5, counterexample: foo is referenced by the root but absent
from the lock graph, yet resolution succeeds (the name is recorded, not
fatal) and, with foo already tracked, the whole run exits 0 instead of
failing with exit code 2. -/
theorem c5_counterexample :
    getPackage "foo" lockC5 = none ∧
    resolveInternal 3 lockC5 = .ok ⟨[("foo", "^1.0.0")], []⟩ ∧
    main 3 "tpip.json" [entryC5] lockC5 (fun _ => none) =
      some ⟨[entryC5], ("tpip.json", jsonStringify4 [entryC5]), 0⟩ := by
  exact ⟨rfl, rfl, rfl⟩

/-- Claim C5, amended: resolution fails fatally only when the package
being resolved into (here the root) is absent from the lock graph; the
thrown error is caught at the top level and sets result 2, the resolved
set stays empty, and the final exit code is 2 unless a license drift in
the update pass overwrites it with 1; a merely referenced name with no
lock entry does not fail resolution. -/
theorem c5_missing_root_fatal (fuel : Nat) (jsonFile : String)
    (tpipJson : List TpipDependency) (lockJson : PackageLockJson)
    (fs : String → Option String) (h : getPackage "" lockJson = none) :
    resolveInternal fuel lockJson = .err "" ∧
    main fuel jsonFile tpipJson lockJson fs =
      some ⟨(driftPass lockJson fs tpipJson).1,
        (jsonFile, jsonStringify4 (driftPass lockJson fs tpipJson).1),
        if (driftPass lockJson fs tpipJson).2 then 1 else 2⟩ := by
  have hres : resolveInternal fuel lockJson = .err "" := by
    simp [resolveInternal, h]
  refine ⟨hres, ?_⟩
  simp only [main, hres]
  simp [finishMain, missingOf]

/-- Claim C5, witness: with an empty lock graph the root is missing, the
resolver throws and the run completes with exit code 2. -/
theorem c5_missing_root_fatal_witness :
    resolveInternal 3 (⟨[]⟩ : PackageLockJson) = .err "" ∧
    main 3 "tpip.json" [] ⟨[]⟩ (fun _ => none) =
      some ⟨(driftPass ⟨[]⟩ (fun _ => none) []).1,
        ("tpip.json", jsonStringify4 (driftPass ⟨[]⟩ (fun _ => none) []).1),
        if (driftPass ⟨[]⟩ (fun _ => none) []).2 then 1 else 2⟩ := by
  exact c5_missing_root_fatal 3 "tpip.json" [] ⟨[]⟩ (fun _ => none) rfl

/-- Claim C6: running the update twice in succession with the same lock
graph and installed tree, feeding the manifest written by the first run
into the second, completes and produces the identical manifest and the
identical written file. -/
theorem c6_idempotent (fuel : Nat) (jsonFile : String) (tpipJson : List TpipDependency)
    (lockJson : PackageLockJson) (fs : String → Option String) (o1 : MainResult)
    (h : main fuel jsonFile tpipJson lockJson fs = some o1) :
    (main fuel jsonFile o1.manifest lockJson fs).map MainResult.manifest = some o1.manifest ∧
    (main fuel jsonFile o1.manifest lockJson fs).map MainResult.written = some o1.written := by
  rcases main_eq_some fuel jsonFile tpipJson lockJson fs o1 h with ⟨n, heq, rfl⟩ | ⟨st, heq, rfl⟩ <;>
    simp only [main, heq, Option.map_some] <;>
    constructor
  · exact congrArg some (finishMain_idem jsonFile tpipJson lockJson fs [] 2 2).1
  · exact congrArg some (finishMain_idem jsonFile tpipJson lockJson fs [] 2 2).2
  · exact congrArg some (finishMain_idem jsonFile tpipJson lockJson fs st.results _ _).1
  · exact congrArg some (finishMain_idem jsonFile tpipJson lockJson fs st.results _ _).2

/-- Claim C6, witness: the first run over an empty manifest appends the
missing foo entry; a second run over the written manifest reproduces it
and the written file verbatim. -/
theorem c6_idempotent_witness :
    (main 3 "tpip.json" outW6.manifest lockW6 fsW6).map MainResult.manifest =
      some outW6.manifest ∧
    (main 3 "tpip.json" outW6.manifest lockW6 fsW6).map MainResult.written =
      some outW6.written := by
  exact c6_idempotent 3 "tpip.json" [] lockW6 fsW6 outW6 rfl

/-- Claim C7: over a lock graph whose root dependencies contain no
internal-namespace name (hence no internal package is reachable), the
resolver returns exactly the root's direct dependency list minus the
type-only names, each mapped to its recorded version range, with no
warnings. -/
theorem c7_no_internal_flat (fuel : Nat) (lockJson : PackageLockJson) (root : Package)
    (h1 : getPackage "" lockJson = some root)
    (h2 : ∀ p ∈ root.dependencies, strStarts p.1 "@arm-debug" = false)
    (h3 : (root.dependencies.map Prod.fst).Nodup)
    (h4 : root.dependencies.length < fuel) :
    resolveInternal fuel lockJson =
      .ok ⟨root.dependencies.filter (fun p => !(strStarts p.1 "@types")), []⟩ := by
  simp only [resolveInternal, h1]
  rw [resolveList_flat lockJson root.dependencies fuel ⟨[], []⟩ h2 h3 (fun p _ => rfl) h4]
  simp

/-- Claim C7, witness: a root with one regular and one type-only
dependency resolves to the regular one alone. -/
theorem c7_no_internal_flat_witness :
    resolveInternal 3 lockW7 =
      .ok ⟨[("foo", "^1.0.0"), ("@types/node", "^20.11.30")].filter
        (fun p => !(strStarts p.1 "@types")), []⟩ := by
  exact c7_no_internal_flat 3 lockW7 ⟨"1.0.0", [("foo", "^1.0.0"), ("@types/node", "^20.11.30")]⟩
    rfl (by decide) (by decide) (by decide)

/-- Claim C8: every completing run writes the final manifest, serialized
as 4-space-indented JSON, to the input path, whatever the exit code —
the write at the end of main is unconditional. -/
theorem c8_always_writes (fuel : Nat) (jsonFile : String) (tpipJson : List TpipDependency)
    (lockJson : PackageLockJson) (fs : String → Option String) (o : MainResult)
    (h : main fuel jsonFile tpipJson lockJson fs = some o) :
    o.written = (jsonFile, jsonStringify4 o.manifest) := by
  rcases main_eq_some fuel jsonFile tpipJson lockJson fs o h with ⟨n, heq, rfl⟩ | ⟨st, heq, rfl⟩ <;>
    exact finishMain_written _ _ _ _ _ _

/-- Claim C8, witness: a run that fails resolution and exits 2 still
writes the serialized manifest to the input path. -/
theorem c8_always_writes_witness :
    outW8.written = ("third-party-licenses.json", jsonStringify4 outW8.manifest) ∧
    outW8.exitCode = 2 := by
  exact ⟨c8_always_writes 3 "third-party-licenses.json" [] ⟨[]⟩ (fun _ => none) outW8 rfl, rfl⟩

/-- Claim C9: whenever the resolver succeeds, no key of the returned
accumulator lies in the type-only or internal namespace: internal
packages are inlined rather than recorded and type-only packages are
skipped, at every recursion depth. -/
theorem c9_no_namespaced_keys (fuel : Nat) (lockJson : PackageLockJson) (st : ResolveState)
    (h : resolveInternal fuel lockJson = .ok st) :
    ∀ k ∈ st.results.map Prod.fst,
      strStarts k "@types" = false ∧ strStarts k "@arm-debug" = false := by
  unfold resolveInternal at h
  split at h
  · simp at h
  · exact resolveList_keys lockJson fuel _ ⟨[], []⟩ st h (by simp)

/-- Claim C9, witness: the key recorded on the fixture run lies in
neither namespace. -/
theorem c9_no_namespaced_keys_witness :
    strStarts "bar" "@types" = false ∧ strStarts "bar" "@arm-debug" = false := by
  exact c9_no_namespaced_keys 3 lockW9 ⟨[("bar", "^1.0.0")], []⟩ rfl "bar" (by decide)

/-- Claim C10: the entry synthesized for a missing dependency reaches
the written manifest with the sentinel in its url and license fields, so
hasFixMe holds for it, and any completing rerun over that written
manifest (before manual completion) exits nonzero. -/
theorem c10_synthesized_persists (fuel : Nat) (jsonFile : String)
    (tpipJson : List TpipDependency) (lockJson : PackageLockJson)
    (fs : String → Option String) (st : ResolveState) (o1 : MainResult) (d : String)
    (hres : resolveInternal fuel lockJson = .ok st)
    (h1 : main fuel jsonFile tpipJson lockJson fs = some o1)
    (hd : d ∈ missingOf tpipJson st.results) :
    (newEntry lockJson fs d ∈ o1.manifest ∧
      (newEntry lockJson fs d).url = FIXME ∧
      (newEntry lockJson fs d).license = FIXME ∧
      hasFixMe (newEntry lockJson fs d) = true) ∧
    ∀ o2, main fuel jsonFile o1.manifest lockJson fs = some o2 →
      o2.exitCode = 1 ∨ o2.exitCode = 2 := by
  rcases main_eq_some fuel jsonFile tpipJson lockJson fs o1 h1 with ⟨n, heq, rfl⟩ | ⟨st', heq, rfl⟩
  · rw [hres] at heq
    simp at heq
  · rw [hres] at heq
    injection heq with heq
    subst heq
    have hfm : hasFixMe (newEntry lockJson fs d) = true := by
      simp [hasFixMe, newEntry]
    have hmem := finishMain_mem_new jsonFile tpipJson lockJson fs st.results
      (if tpipJson.any hasFixMe = true then 1 else 0) d hd
    refine ⟨⟨hmem, rfl, rfl, hfm⟩, ?_⟩
    intro o2 h2
    exact main_exit_of_fixme fuel jsonFile _ lockJson fs o2 _ hmem hfm h2

/-- Claim C10, witness: the synthesized foo entry persists with both
sentinels and the second run over the written manifest exits 1. -/
theorem c10_synthesized_persists_witness :
    (newEntry lockW10 (fun _ => none) "foo" ∈ outW10.manifest ∧
      (newEntry lockW10 (fun _ => none) "foo").url = FIXME ∧
      (newEntry lockW10 (fun _ => none) "foo").license = FIXME ∧
      hasFixMe (newEntry lockW10 (fun _ => none) "foo") = true) ∧
    (outW10b.exitCode = 1 ∨ outW10b.exitCode = 2) := by
  have h := c10_synthesized_persists 3 "tpip.json" [] lockW10 (fun _ => none)
    ⟨[("foo", "^1.0.0")], []⟩ outW10 "foo" rfl rfl (by decide)
  exact ⟨h.1, h.2 outW10b rfl⟩

end UpdateTpip
